import Mathlib

/-!
Shallow embedding of the toilet-exchange bot's market simulation engine,
peer-to-peer trade protocol, trading commands and leaderboard machinery.
All definitions are translated from the Python source under `src/`:
  - `src/cogs/market.py` (`_update_prices_for_guild`)
  - `src/cogs/trading_p2p.py` (`start_trade`, `trade_accept`, `deny`,
    `_finalize_trade`, `_trade_fail`)
  - `src/cogs/trading.py` (`buy`)
  - `src/cogs/leaderboard.py` (`daily_post_loop`)
  - `src/utils/database.py` (`update_balance`, `record_trade`,
    `get_user`, `update_leaderboard_cache`)
  - `src/utils/helpers.py` (`get_price_change_range`)
Floating-point arithmetic of the source is embedded as exact rational
arithmetic; Python `int` values as `Int`/`Nat`.
-/

namespace ToiletExchange

/-! ## Market simulation engine (`src/cogs/market.py`) -/

/-- Python's `round(x, 6)` applied to the exact rational value: round to the
nearest integer multiple of 10⁻⁶, ties to even (bankers' rounding). -/
def roundTiesEven (x : ℚ) : ℤ :=
  let f := ⌊x⌋
  let r := x - (f : ℚ)
  if r < 1/2 then f
  else if 1/2 < r then f + 1
  else if f % 2 = 0 then f else f + 1

/-- `round(new_price, 6)` from `_update_prices_for_guild`. -/
def round6 (x : ℚ) : ℚ := ((roundTiesEven (x * 1000000) : ℤ) : ℚ) / 1000000

/-- The random draws consumed by one stock's price update in one tick:
`random.uniform(low, high)` for the risk tier, the per-tick market-wide
`market_sentiment = random.uniform(-0.002, 0.002)`, and the
`random.uniform(0.95, 1.05)` factor used for `base_target`. -/
structure TickDraw where
  riskDraw : ℚ
  sentiment : ℚ
  targetDraw : ℚ
deriving DecidableEq, Repr

/-- One stock's mutable state across ticks: the price stored in the `stocks`
table and the in-memory momentum value (`self._momentum[guild.id][ticker]`,
absent keys read as 0 via `.get(ticker, 0)`). -/
structure StockState where
  price : ℚ
  momentum : ℚ
deriving DecidableEq, Repr

/-- A stock state as first seen by the engine: price from the table, no
momentum entry yet (`self._momentum[guild.id].get(ticker, 0)` gives 0). -/
def initStock (p : ℚ) : StockState := ⟨p, 0⟩

/-- `raw_change = random.uniform(low, high) + market_sentiment`. -/
def rawChange (d : TickDraw) : ℚ := d.riskDraw + d.sentiment

/-- `base_target = price * random.uniform(0.95, 1.05)`. -/
def baseTarget (price u : ℚ) : ℚ := price * u

/-- `drift_bias = mean_bias * ((base_target - price) / base_target)`.
Note the dynamic median `target_price` computed earlier in
`_update_prices_for_guild` does not occur here. -/
def driftBias (meanBias price u : ℚ) : ℚ :=
  meanBias * ((baseTarget price u - price) / baseTarget price u)

/-- `recovery_boost = 1.5 + (1.0 - price) if price < 1.0 else 1.0`. -/
def recoveryBoost (price : ℚ) : ℚ := if price < 1 then 1.5 + (1 - price) else 1

/-- `momentum = 0.7 * prev_mom + 0.3 * (raw_change * price)`. -/
def newMomentum (s : StockState) (d : TickDraw) : ℚ :=
  0.7 * s.momentum + 0.3 * (rawChange d * s.price)

/-- `volatility_scale = 1 + (price / 500)`. -/
def volatilityScale (price : ℚ) : ℚ := 1 + price / 500

/-- `final_change = price * (raw_change + drift_bias) * recovery_boost *
volatility_scale + 0.05 * momentum` (with `momentum` already updated). -/
def finalChange (meanBias : ℚ) (s : StockState) (d : TickDraw) : ℚ :=
  s.price * (rawChange d + driftBias meanBias s.price d.targetDraw)
      * recoveryBoost s.price * volatilityScale s.price
    + 0.05 * newMomentum s d

/-- One stock's update in one tick: store the new momentum, then write
`round(max(price + final_change, 0.01), 6)` back to the `stocks` table. -/
def tickStock (meanBias : ℚ) (s : StockState) (d : TickDraw) : StockState :=
  { price := round6 (max (s.price + finalChange meanBias s d) 0.01)
    momentum := newMomentum s d }

/-- Iterated ticks for one stock (the stored, rounded price is what the next
tick reads back from the `stocks` table). -/
def runTicks (meanBias : ℚ) (s : StockState) (ds : List TickDraw) : StockState :=
  ds.foldl (tickStock meanBias) s

/-- `statistics.median` on a nonempty list: sort, take the middle element for
odd length, the mean of the two middle elements for even length. -/
def median (l : List ℚ) : ℚ :=
  let s := l.insertionSort (· ≤ ·)
  let n := s.length
  if n % 2 = 1 then s.getD (n / 2) 0
  else (s.getD (n / 2 - 1) 0 + s.getD (n / 2) 0) / 2

/-- The per-guild tick body of `_update_prices_for_guild`: it computes
`target_price = statistics.median(prices)` and then updates every stock with
`tickStock`.  As in the source, `targetPrice` is dead after its assignment:
no later expression mentions it. -/
def guildTick (meanBias : ℚ) (stocks : List StockState) (ds : List TickDraw) :
    List StockState :=
  let targetPrice := median (stocks.map (·.price))
  let _ := targetPrice
  List.zipWith (tickStock meanBias) stocks ds

/-- `get_price_change_range` from `src/utils/helpers.py`. -/
def getPriceChangeRange (risk : String) : ℚ × ℚ :=
  if risk = "low" then (-0.02, 0.02)
  else if risk = "moderate" then (-0.05, 0.05)
  else if risk = "high" then (-0.15, 0.15)
  else (-0.05, 0.05)

/-! ## Ledger store (`src/utils/database.py`), one guild

Discord user ids are modelled as `Nat` (the source stores `str(discord_id)`;
`str` is injective on ids).  All operations below are per guild, so the guild
id is left implicit in this part of the embedding. -/

/-- `side` column of the `trades` table: `CHECK(side IN ('BUY', 'SELL'))`. -/
inductive Side
  | buy
  | sell
deriving DecidableEq, Repr

/-- One row of the `trades` table (for a fixed guild). -/
structure TradeRec where
  userId : Nat
  ticker : String
  qty : Int
  side : Side
deriving DecidableEq, Repr

/-- The per-guild ledger state touched by trading: the `users` table
(`discord_id ↦ cash`, unique per the `UNIQUE(discord_id, guild_id)`
constraint) and the append-only `trades` table. -/
structure Db where
  users : List (Nat × ℚ)
  trades : List TradeRec
deriving DecidableEq, Repr

/-- `CASE WHEN side='BUY' THEN qty ELSE -qty END`. -/
def signedQty (t : TradeRec) : Int :=
  match t.side with
  | .buy => t.qty
  | .sell => -t.qty

/-- `SELECT SUM(CASE WHEN side='BUY' THEN qty ELSE -qty END) FROM trades
WHERE user_id=? AND guild_id=? AND ticker=?`, with SQL's `SUM` of no rows
(`NULL`) already collapsed to 0 as the callers do via `row[0] or 0`. -/
def netHolding (db : Db) (u : Nat) (tk : String) : Int :=
  ((db.trades.filter (fun t => decide (t.userId = u ∧ t.ticker = tk))).map
    signedQty).sum

/-- `user_owns_stock` from `_finalize_trade`: `owned >= qty`. -/
def userOwnsStock (db : Db) (u : Nat) (tk : String) (qty : Int) : Bool :=
  decide (qty ≤ netHolding db u tk)

/-- `get_cash_balance` from `_finalize_trade`: the user's cash via
`get_user`, or `0.0` when the user has no row. -/
def getCashBalance (db : Db) (u : Nat) : ℚ :=
  match db.users.lookup u with
  | some c => c
  | none => 0

/-- `update_balance`: `UPDATE users SET cash = cash + ? WHERE discord_id=?
AND guild_id=?` — a no-op when the user has no row. -/
def updateBalance (db : Db) (u : Nat) (delta : ℚ) : Db :=
  { db with users := db.users.map (fun p => if p.1 = u then (p.1, p.2 + delta) else p) }

/-- `record_trade`: `INSERT INTO trades(user_id, guild_id, ticker, qty, side)
VALUES(...)`. -/
def recordTrade (db : Db) (u : Nat) (tk : String) (qty : Int) (s : Side) : Db :=
  { db with trades := db.trades ++ [⟨u, tk, qty, s⟩] }

/-! ## P2P trade protocol (`src/cogs/trading_p2p.py`) -/

/-- One party's offer inside a session: `{"cash": 0, "stocks": {}}`.  The
`stocks` dict is a ticker-keyed mapping; dict keys are unique and iterate in
insertion order, which the list representation preserves. -/
structure Offer where
  cash : Int
  stocks : List (String × Int)
deriving DecidableEq, Repr

/-- The empty offer a session starts with. -/
def emptyOffer : Offer := ⟨0, []⟩

/-- `trade_data["mode"]`: `"targeted" if partner else "open"`. -/
inductive TMode
  | openM
  | targeted
deriving DecidableEq, Repr

/-- `trade_data["status"]`: `"pending"` before a partner joins, `"active"`
afterwards. -/
inductive TStatus
  | pending
  | active
deriving DecidableEq, Repr

/-- One session dict as built by `start_trade` (the `message` field is chat
glue and omitted). `accepts` is the set added by the `accept` command. -/
structure PSession where
  partnerId : Option Nat
  mode : TMode
  status : TStatus
  initiatorOffer : Offer
  partnerOffer : Offer
  accepts : List Nat
deriving DecidableEq, Repr

/-- The in-memory `active_trades` dict.  In Python both parties' keys map to
the *same* session dict object; the embedding keeps one copy per session in
`store` and lets `binds` map each bound user to its session's key, so that
aliasing through either user's entry is preserved.  Dict keys are unique and
iterate in insertion order. -/
structure Registry where
  binds : List (Nat × Nat)
  store : List (Nat × PSession)
deriving DecidableEq, Repr

/-- The registry at process start: `active_trades = {}`. -/
def emptyRegistry : Registry := ⟨[], []⟩

/-- The user ids currently bound in `active_trades`. -/
def boundUsers (reg : Registry) : List Nat := reg.binds.map (·.1)

/-- `active_trades.pop(u, None)`: dict keys are unique, so removing every
entry with key `u` is exactly the single-key pop. -/
def eraseBind (reg : Registry) (u : Nat) : Registry :=
  { reg with binds := reg.binds.filter (fun b => decide (b.1 ≠ u)) }

/-- `active_trades[u] = sid`: replace in place when the key exists (Python
dicts keep the original insertion position), append otherwise. -/
def setBind (reg : Registry) (u sid : Nat) : Registry :=
  if (reg.binds.lookup u).isSome then
    { reg with binds := reg.binds.map (fun b => if b.1 = u then (u, sid) else b) }
  else
    { reg with binds := reg.binds ++ [(u, sid)] }

/-- Mutate the shared session object `sid` (visible through every bound key). -/
def updateStore (reg : Registry) (sid : Nat) (f : PSession → PSession) : Registry :=
  { reg with store := reg.store.map (fun e => if e.1 = sid then (e.1, f e.2) else e) }

/-- Outcomes of the create branch of `start_trade`. -/
inductive CreateResult
  | alreadyTrading
  | selfTarget
  | created
deriving DecidableEq, Repr

/-- The create branch of `start_trade` (target already resolved: `none` for
`!start_trade all`, `some t` for a targeted trade).  `sid` is the fresh key
the new session dict is stored under. -/
def startTradeCreate (reg : Registry) (caller : Nat) (target : Option Nat)
    (sid : Nat) : CreateResult × Registry :=
  if (reg.binds.lookup caller).isSome then (.alreadyTrading, reg)
  else
    match target with
    | some t =>
      if t = caller then (.selfTarget, reg)
      else
        (.created,
          { binds := reg.binds ++ [(caller, sid)]
            store := reg.store ++
              [(sid, ⟨some t, .targeted, .pending, emptyOffer, emptyOffer, []⟩)] })
    | none =>
      (.created,
        { binds := reg.binds ++ [(caller, sid)]
          store := reg.store ++
            [(sid, ⟨none, .openM, .pending, emptyOffer, emptyOffer, []⟩)] })

/-- Outcomes of the cancel branch of `start_trade`. -/
inductive CancelResult
  | noTrade
  | cancelled
deriving DecidableEq, Repr

/-- The `!start_trade cancel` branch: look up the caller's session, read its
`partner_id`, then `active_trades.pop(uid, None)` for the caller and that
partner id. -/
def cancelTrade (reg : Registry) (caller : Nat) : CancelResult × Registry :=
  match reg.binds.lookup caller with
  | none => (.noTrade, reg)
  | some sid =>
    let pid := (reg.store.lookup sid).bind PSession.partnerId
    let r1 := eraseBind reg caller
    (.cancelled, match pid with
      | some p => eraseBind r1 p
      | none => r1)

/-- Outcomes of `trade_accept` (the join command). -/
inductive JoinResult
  | noOpenTrade
  | ownTrade
  | joined
deriving DecidableEq, Repr

/-- The search loop of `trade_accept`: the first `active_trades` entry (in
insertion order) whose session is `pending` and either open with no partner
or targeted at the caller. -/
def findJoinable (reg : Registry) (caller : Nat) : Option (Nat × Nat) :=
  reg.binds.find? (fun b =>
    match reg.store.lookup b.2 with
    | some s =>
      decide (s.status = .pending ∧
        ((s.mode = .openM ∧ s.partnerId = none) ∨
          (s.mode = .targeted ∧ s.partnerId = some caller)))
    | none => false)

/-- `trade_accept`: find a joinable session, reject joining one's own trade,
otherwise set `partner_id`/`status` on the shared session and bind the
caller.  Note: no check that the caller is already bound elsewhere. -/
def joinTrade (reg : Registry) (caller : Nat) : JoinResult × Registry :=
  match findJoinable reg caller with
  | none => (.noOpenTrade, reg)
  | some b =>
    if b.1 = caller then (.ownTrade, reg)
    else
      let reg1 := updateStore reg b.2
        (fun s => { s with partnerId := some caller, status := .active })
      (.joined, setBind reg1 caller b.2)

/-- Outcomes of the `deny` command. -/
inductive DenyResult
  | noTrade
  | denied
deriving DecidableEq, Repr

/-- The `deny` command: look up the caller's session, read `partner_id`, then
`active_trades.pop(uid, None)` for `[user_id, partner_id]`.  `partner_id` is
always the responder's id, whoever invokes the command. -/
def denyTrade (reg : Registry) (caller : Nat) : DenyResult × Registry :=
  match reg.binds.lookup caller with
  | none => (.noTrade, reg)
  | some sid =>
    let pid := (reg.store.lookup sid).bind PSession.partnerId
    let r1 := eraseBind reg caller
    (.denied, match pid with
      | some p => eraseBind r1 p
      | none => r1)

/-- The structured content of the two `_trade_fail` message shapes:
`"{party} tried to trade {qty}×{ticker}, but does not own enough."` and
`"{party} does not have enough cash (${balance})."`. -/
inductive FailReason
  | stockShort (party : Nat) (ticker : String) (qty : Int)
  | cashShort (party : Nat) (balance : ℚ)
deriving DecidableEq, Repr

/-- Result of `_finalize_trade` on the ledger. -/
inductive FinResult
  | completed
  | failed (r : FailReason)
deriving DecidableEq, Repr

/-- The ownership-verification loop of `_finalize_trade` over one party's
offered stocks dict: the first `(ticker, qty)` with `qty > 0` for which
`user_owns_stock` is false. -/
def firstShort (db : Db) (u : Nat) (stocks : List (String × Int)) :
    Option (String × Int) :=
  stocks.find? (fun tq => 0 < tq.2 && !(userOwnsStock db u tq.1 tq.2))

/-- The stock-transfer loop of `_finalize_trade` for one party's offer:
for every `(ticker, qty)` with `qty > 0`, record a SELL for the seller and a
BUY for the buyer. -/
def applyStockTransfers (db : Db) (seller buyer : Nat)
    (stocks : List (String × Int)) : Db :=
  stocks.foldl
    (fun d tq =>
      if 0 < tq.2 then
        recordTrade (recordTrade d seller tq.1 tq.2 .sell) buyer tq.1 tq.2 .buy
      else d)
    db

/-- The ledger part of `_finalize_trade` (`i` the initiator, `p` the partner,
`io`/`po` their offers): verify the initiator's then the partner's offered
stocks, then the initiator's then the partner's cash; on any shortfall return
the `_trade_fail` reason and leave the ledger untouched; otherwise apply the
net cash transfer (skipped when zero) and record the paired trade rows. -/
def finalizeTradeDb (db : Db) (i p : Nat) (io po : Offer) : FinResult × Db :=
  match firstShort db i io.stocks with
  | some tq => (.failed (.stockShort i tq.1 tq.2), db)
  | none =>
    match firstShort db p po.stocks with
    | some tq => (.failed (.stockShort p tq.1 tq.2), db)
    | none =>
      let initiatorBalance := getCashBalance db i
      let partnerBalance := getCashBalance db p
      if (io.cash : ℚ) > initiatorBalance then
        (.failed (.cashShort i initiatorBalance), db)
      else if (po.cash : ℚ) > partnerBalance then
        (.failed (.cashShort p partnerBalance), db)
      else
        let netCash : Int := io.cash - po.cash
        let db1 :=
          if netCash ≠ 0 then
            updateBalance (updateBalance db i (-(netCash : ℚ))) p (netCash : ℚ)
          else db
        let db2 := applyStockTransfers db1 i p io.stocks
        let db3 := applyStockTransfers db2 p i po.stocks
        (.completed, db3)

/-- The registry clean-up of `_trade_fail`: `initiator_id` is recovered as
the first `active_trades` key bound to this session object, then both
`initiator_id` and the session's `partner_id` are popped.  (The successful
branch of `_finalize_trade` pops the same two keys.) -/
def tradeFailDiscard (reg : Registry) (sid : Nat) : Registry :=
  match reg.binds.find? (fun b => decide (b.2 = sid)) with
  | none => reg
  | some b0 =>
    let r1 := eraseBind reg b0.1
    match (reg.store.lookup sid).bind PSession.partnerId with
    | some p => eraseBind r1 p
    | none => r1

/-- The insufficiency condition exactly as the claim states it: some party's
cash balance is below its offered cash, or some party's net holding of an
offered ticker is below the offered quantity (no positivity restriction on
the offered quantity). -/
def claimedInsufficient (db : Db) (i p : Nat) (io po : Offer) : Prop :=
  getCashBalance db i < (io.cash : ℚ) ∨ getCashBalance db p < (po.cash : ℚ) ∨
    (∃ tq ∈ io.stocks, netHolding db i tq.1 < tq.2) ∨
    (∃ tq ∈ po.stocks, netHolding db p tq.1 < tq.2)

/-- The insufficiency condition restricted to offered entries with positive
quantity — the condition `_finalize_trade` actually checks (`if qty > 0`). -/
def posInsufficient (db : Db) (i p : Nat) (io po : Offer) : Prop :=
  getCashBalance db i < (io.cash : ℚ) ∨ getCashBalance db p < (po.cash : ℚ) ∨
    (∃ tq ∈ io.stocks, 0 < tq.2 ∧ netHolding db i tq.1 < tq.2) ∨
    (∃ tq ∈ po.stocks, 0 < tq.2 ∧ netHolding db p tq.1 < tq.2)

/-- The failure reason correctly blames an offending party: it names a party
with a genuinely short offered stock (together with that very ticker and
quantity), or a party whose balance (as reported) is below its offered cash. -/
def blames (db : Db) (i p : Nat) (io po : Offer) : FailReason → Prop
  | .stockShort u t q =>
    (u = i ∧ (t, q) ∈ io.stocks ∧ 0 < q ∧ netHolding db i t < q) ∨
      (u = p ∧ (t, q) ∈ po.stocks ∧ 0 < q ∧ netHolding db p t < q)
  | .cashShort u b =>
    (u = i ∧ b = getCashBalance db i ∧ b < (io.cash : ℚ)) ∨
      (u = p ∧ b = getCashBalance db p ∧ b < (po.cash : ℚ))

/-! ## The `buy` command (`src/cogs/trading.py`) -/

/-- Python's `str.isdigit` on the ASCII strings the commands receive:
nonempty and all digit characters. -/
def isdigit (s : String) : Bool := !s.data.isEmpty && s.data.all Char.isDigit

/-- `int(s)` for a string that passed `isdigit`. -/
def strToNat (s : String) : Nat :=
  s.data.foldl (fun n c => n * 10 + (c.toNat - '0'.toNat)) 0

/-- `buy` calls `get_stock_price(ticker)`, but
`get_stock_price(symbol, guild_id)` in `src/utils/database.py` takes two
required positional arguments, so Python raises `TypeError` at the call,
before any price is read; the genuine lookup (returning `None` for an
unknown ticker) is never reached.  (`sell` contains the same call.) -/
def getStockPriceOneArg : Except String (Option ℚ) :=
  .error "get_stock_price missing 1 required positional argument: guild_id"

/-- Outcomes of the `buy` command, in source order.  `internalError` is the
path where an uncaught exception escapes to `cog_command_error`. -/
inductive BuyResult
  | usageError
  | qtyNotNumber
  | qtyNonPositive
  | noAccount
  | internalError
  | invalidTicker
  | notEnoughCash
  | bought
deriving DecidableEq, Repr

/-- The `buy` command body: validate arguments, detect which argument is the
quantity, check registration, then call the (mis-called) price lookup; the
remaining branches mirror the source but are unreachable because the lookup
always raises.  On every non-`bought` path the ledger is untouched. -/
def buyCmd (db : Db) (caller : Nat) (arg1 arg2 : String) : BuyResult × Db :=
  if arg1 = "" ∨ arg2 = "" then (.usageError, db)
  else
    let parsed : Option (Nat × String) :=
      if isdigit arg1 then some (strToNat arg1, arg2)
      else if isdigit arg2 then some (strToNat arg2, arg1)
      else none
    match parsed with
    | none => (.qtyNotNumber, db)
    | some (qty, tk) =>
      if qty ≤ 0 then (.qtyNonPositive, db)
      else
        match db.users.lookup caller with
        | none => (.noAccount, db)
        | some cash =>
          match getStockPriceOneArg with
          | .error _ => (.internalError, db)
          | .ok priceOpt =>
            match priceOpt with
            | none => (.invalidTicker, db)
            | some price =>
              let totalCost := price * qty
              if cash < totalCost then (.notEnoughCash, db)
              else
                (.bought,
                  recordTrade (updateBalance db caller (-totalCost)) caller
                    tk.toUpper qty .buy)

/-! ## Leaderboard daily post (`src/cogs/leaderboard.py`) -/

/-- Python's `s.split(":")` at the character level: split the character list
at every colon (an empty input yields one empty part, as in Python). -/
def splitColon (l : List Char) : List (List Char) :=
  l.foldr
    (fun ch acc =>
      if ch = ':' then [] :: acc
      else
        match acc with
        | [] => [[ch]]
        | a :: as => (ch :: a) :: as)
    [[]]

/-- `int(part)` as used on each split part, `none` when `int` would raise
`ValueError` (empty or non-digit part; `int`'s tolerance of surrounding
whitespace and an explicit sign never occurs with `HH:MM` settings). -/
def partToNat (l : List Char) : Option Nat :=
  if !l.isEmpty && l.all Char.isDigit then
    some (l.foldl (fun n c => n * 10 + (c.toNat - '0'.toNat)) 0)
  else none

/-- `target_hour, target_minute = map(int, post_time_str.split(":"))`,
`none` when a `ValueError` is raised (wrong number of parts for the tuple
unpacking, or a non-numeric part). -/
def parsePostTime (s : String) : Option (Nat × Nat) :=
  match splitColon s.data with
  | [h, m] =>
    match partToNat h, partToNat m with
    | some hh, some mm => some (hh, mm)
    | _, _ => none
  | _ => none

/-- `daily_post_loop` calls `update_leaderboard_cache()`, but
`update_leaderboard_cache(guild_id)` in `src/utils/database.py` takes one
required positional argument, so Python raises `TypeError` at the call;
the per-guild `except Exception` swallows it. -/
def updateLeaderboardCacheNoArg : Except String Unit :=
  .error "update_leaderboard_cache missing 1 required positional argument: guild_id"

/-- One wall-clock instant as `daily_post_loop` observes it: UTC hour and
minute, plus `today_key = now_utc.date().isoformat()`. -/
structure ClockTick where
  hour : Nat
  minute : Nat
  dayKey : String
deriving DecidableEq, Repr

/-- One iteration of `daily_post_loop` for one guild, given the guild's
`_last_posted_day` marker and its `leaderboard_post_time` setting.  Returns
whether a leaderboard post was emitted and the new marker.  The cache update
precedes the post and the marker write; its `TypeError` aborts all three. -/
def dailyPostCheck (marker : Option String) (postTimeStr : String)
    (t : ClockTick) : Bool × Option String :=
  if postTimeStr = "" ∨ postTimeStr.data.map Char.toLower = "none".data then
    (false, marker)
  else
    match parsePostTime postTimeStr with
    | none => (false, marker)
    | some hm =>
      if t.hour = hm.1 ∧ t.minute = hm.2 ∧ marker ≠ some t.dayKey then
        match updateLeaderboardCacheNoArg with
        | .error _ => (false, marker)
        | .ok _ => (true, some t.dayKey)
      else (false, marker)

/-- Run `daily_post_loop` over a sequence of wall-clock instants, counting
the posts emitted for the guild. -/
def runDailyChecks (marker : Option String) (postTimeStr : String)
    (ticks : List ClockTick) : Nat × Option String :=
  ticks.foldl
    (fun acc t =>
      let r := dailyPostCheck acc.2 postTimeStr t
      (acc.1 + (if r.1 then 1 else 0), r.2))
    (0, marker)

/-! ## Leaderboard cache rebuild (`update_leaderboard_cache` in
`src/utils/database.py`)

This operation joins across guilds, so here rows carry their guild id. -/

/-- One row of the `users` table. -/
structure URow where
  guildId : Nat
  userId : Nat
  cash : ℚ
deriving DecidableEq, Repr

/-- One row of the `trades` table. -/
structure TRow where
  userId : Nat
  guildId : Nat
  ticker : String
  qty : Int
  side : Side
deriving DecidableEq, Repr

/-- One row of the `stocks` table (`PRIMARY KEY (ticker, guild_id)`). -/
structure SRow where
  ticker : String
  guildId : Nat
  price : ℚ
deriving DecidableEq, Repr

/-- One row of the `leaderboard_cache` table. -/
structure CacheRow where
  guildId : Nat
  userId : Nat
  totalValue : ℚ
deriving DecidableEq, Repr

/-- `CASE WHEN t.side='BUY' THEN t.qty ELSE -t.qty END`. -/
def signedQtyT (t : TRow) : Int :=
  match t.side with
  | .buy => t.qty
  | .sell => -t.qty

/-- The `SUM(... * s.price)` aggregate of the rebuild query for one user:
the user's trade rows in the guild, LEFT JOINed against the guild's stocks
on the ticker; rows whose ticker has no stock row produce a NULL product,
which SQL's `SUM` ignores (hence the empty inner sum), and `IFNULL(..., 0)`
turns an empty aggregate into 0 (hence the empty outer sum). -/
def joinSum (trades : List TRow) (stocks : List SRow) (g u : Nat) : ℚ :=
  ((trades.filter (fun t => decide (t.userId = u ∧ t.guildId = g))).map
    (fun t =>
      ((stocks.filter (fun s => decide (s.ticker = t.ticker ∧ s.guildId = g))).map
        (fun s => (signedQtyT t : ℚ) * s.price)).sum)).sum

/-- `update_leaderboard_cache(guild_id)`: `DELETE FROM leaderboard_cache
WHERE guild_id=?`, then `INSERT ... SELECT` one row per user of the guild
(`GROUP BY u.discord_id`; user ids are unique within a guild by the schema's
`UNIQUE(discord_id, guild_id)`) valued `u.cash + IFNULL(SUM(...), 0)`. -/
def updateLeaderboardCache (cache : List CacheRow) (users : List URow)
    (trades : List TRow) (stocks : List SRow) (g : Nat) : List CacheRow :=
  cache.filter (fun r => decide (r.guildId ≠ g)) ++
    (users.filter (fun u => decide (u.guildId = g))).map
      (fun u => ⟨g, u.userId, u.cash + joinSum trades stocks g u.userId⟩)

/-- Net holding of `(user, ticker)` in guild `g` recomputed independently
from the trades table (the spec's signed BUY−SELL running sum). -/
def netHoldingG (trades : List TRow) (g u : Nat) (tk : String) : Int :=
  ((trades.filter
      (fun t => decide (t.userId = u ∧ t.guildId = g ∧ t.ticker = tk))).map
    signedQtyT).sum

/-- The spec's independent total for a user: cash plus the sum over the
guild's stocks of net holding times current price. -/
def specTotal (trades : List TRow) (stocks : List SRow)
    (g u : Nat) (cash : ℚ) : ℚ :=
  cash + ((stocks.filter (fun s => decide (s.guildId = g))).map
    (fun s => (netHoldingG trades g u s.ticker : ℚ) * s.price)).sum

/-- Find the cached row of `(guild, user)`. -/
def lookupCache (cache : List CacheRow) (g u : Nat) : Option ℚ :=
  (cache.find? (fun r => decide (r.guildId = g ∧ r.userId = u))).map
    (·.totalValue)

/-! ## Theorems: market simulation -/

theorem floor_le_roundTiesEven (x : ℚ) : ⌊x⌋ ≤ roundTiesEven x := by
  simp only [roundTiesEven]
  split_ifs <;> omega

theorem round6_ge (x : ℚ) (h : (0.01 : ℚ) ≤ x) : (0.01 : ℚ) ≤ round6 x := by
  have h1 : (10000 : ℚ) ≤ x * 1000000 := by nlinarith
  have h2 : (10000 : ℤ) ≤ ⌊x * 1000000⌋ := by
    rw [Int.le_floor]; exact_mod_cast h1
  have h3 : (10000 : ℤ) ≤ roundTiesEven (x * 1000000) :=
    le_trans h2 (floor_le_roundTiesEven _)
  have h4 : (10000 : ℚ) ≤ ((roundTiesEven (x * 1000000) : ℤ) : ℚ) := by
    exact_mod_cast h3
  unfold round6
  calc (0.01 : ℚ) = 10000 / 1000000 := by norm_num
    _ ≤ ((roundTiesEven (x * 1000000) : ℤ) : ℚ) / 1000000 := by
        exact (div_le_div_iff_of_pos_right (by norm_num)).mpr h4

theorem tickStock_price_floor (mb : ℚ) (s : StockState) (d : TickDraw) :
    (0.01 : ℚ) ≤ (tickStock mb s d).price :=
  round6_ge _ (le_max_right _ _)

theorem runTicks_price_floor (mb : ℚ) (s : StockState) (d : TickDraw)
    (ds : List TickDraw) : (0.01 : ℚ) ≤ (runTicks mb s (d :: ds)).price := by
  induction ds generalizing s d with
  | nil => exact tickStock_price_floor mb s d
  | cons d2 ds ih => exact ih (tickStock mb s d) d2

/-- Claim C4: from any positive initial price the stored price stays
strictly positive across any finite number of ticks, and after at least one
tick it is at least the hard floor 0.01 — the update writes
`round(max(price + final_change, 0.01), 6)`, so no tick can make the stored
price negative or zero. -/
theorem price_floor_after_ticks (mb p : ℚ) (ds : List TickDraw) (h : 0 < p) :
    0 < (runTicks mb (initStock p) ds).price ∧
      (ds ≠ [] → (0.01 : ℚ) ≤ (runTicks mb (initStock p) ds).price) := by
  cases ds with
  | nil => exact ⟨h, fun hne => absurd rfl hne⟩
  | cons d ds =>
    have hf := runTicks_price_floor mb (initStock p) d ds
    exact ⟨lt_of_lt_of_le (by norm_num) hf, fun _ => hf⟩

theorem price_floor_after_ticks_witness :
    0 < (5 : ℚ) ∧
      (0 < (runTicks 1 (initStock 5) [⟨1, 1, 1⟩]).price ∧
        (([⟨1, 1, 1⟩] : List TickDraw) ≠ [] →
          (0.01 : ℚ) ≤ (runTicks 1 (initStock 5) [⟨1, 1, 1⟩]).price)) :=
  ⟨by norm_num, price_floor_after_ticks 1 5 [⟨1, 1, 1⟩] (by norm_num)⟩

/-- Claim C6: the momentum value threaded through the ticks satisfies the
70/30 recurrence `m_n = 0.7·m_{n-1} + 0.3·(raw_change_n · price_n)` with
`m_0 = 0` (the momentum dict starts empty and `.get(ticker, 0)` reads 0),
and every tick's price delta includes exactly `0.05 · m_n`. -/
theorem momentum_recurrence (mb p : ℚ) (ds : List TickDraw) (n : Nat)
    (h : n < ds.length) :
    (runTicks mb (initStock p) (ds.take (n + 1))).momentum
        = 0.7 * (runTicks mb (initStock p) (ds.take n)).momentum
          + 0.3 * (rawChange (ds.getD n ⟨0, 0, 0⟩)
              * (runTicks mb (initStock p) (ds.take n)).price) ∧
      (initStock p).momentum = 0 ∧
      (∀ (s : StockState) (d : TickDraw),
        finalChange mb s d
          = s.price * (rawChange d + driftBias mb s.price d.targetDraw)
              * recoveryBoost s.price * volatilityScale s.price
            + 0.05 * (tickStock mb s d).momentum) := by
  refine ⟨?_, rfl, fun s d => rfl⟩
  have hgd : ds.getD n ⟨0, 0, 0⟩ = ds.get ⟨n, h⟩ := by
    simp [List.getD_eq_getElem?_getD, List.getElem?_eq_getElem h]
  rw [hgd]
  have htake : ds.take (n + 1) = ds.take n ++ [ds.get ⟨n, h⟩] := by
    rw [List.take_succ, List.getElem?_eq_getElem h]
    rfl
  rw [htake]
  unfold runTicks
  rw [List.foldl_append]
  rfl

theorem momentum_recurrence_witness :
    1 < ([⟨1, 0, 1⟩, ⟨2, 0, 1⟩] : List TickDraw).length ∧
      ((runTicks 1 (initStock 5) ([⟨1, 0, 1⟩, ⟨2, 0, 1⟩].take 2)).momentum
          = 0.7 * (runTicks 1 (initStock 5)
                ([⟨1, 0, 1⟩, ⟨2, 0, 1⟩].take 1)).momentum
            + 0.3 * (rawChange ([⟨1, 0, 1⟩, ⟨2, 0, 1⟩].getD 1 ⟨0, 0, 0⟩)
                * (runTicks 1 (initStock 5)
                    ([⟨1, 0, 1⟩, ⟨2, 0, 1⟩].take 1)).price) ∧
        (initStock 5).momentum = 0 ∧
        (∀ (s : StockState) (d : TickDraw),
          finalChange 1 s d
            = s.price * (rawChange d + driftBias 1 s.price d.targetDraw)
                * recoveryBoost s.price * volatilityScale s.price
              + 0.05 * (tickStock 1 s d).momentum)) :=
  ⟨by decide, momentum_recurrence 1 5 [⟨1, 0, 1⟩, ⟨2, 0, 1⟩] 1 (by decide)⟩

/-- Claim C2 is false of the code: `_update_prices_for_guild` computes the
median `target_price` but never uses it.  Two markets whose medians differ
(100 versus 5000) give the stock priced 200 the *same* update under the same
draws, so the reversion target used by the drift term is not the median; and
with the stock priced above its market's median (200 > 100) the drift term
is strictly positive (`base_target = 200·1.05`), pushing the price *away*
from the median rather than toward it. -/
theorem drift_ignores_median_target :
    median [(1 : ℚ), 100, 200] = 100 ∧
      median [(200 : ℚ), 5000, 10000] = 5000 ∧
      (guildTick 0.0008 [initStock 1, initStock 100, initStock 200]
            [⟨0, 0, 1⟩, ⟨0, 0, 1⟩, ⟨0, 0, 1.05⟩]).getD 2 (initStock 0)
        = (guildTick 0.0008 [initStock 200, initStock 5000, initStock 10000]
            [⟨0, 0, 1.05⟩, ⟨0, 0, 1⟩, ⟨0, 0, 1⟩]).getD 0 (initStock 0) ∧
      0 < driftBias 0.0008 200 1.05 ∧ (100 : ℚ) < 200 := by
  refine ⟨by decide, by decide, rfl, ?_, by norm_num⟩
  unfold driftBias baseTarget
  norm_num

/-! ## Theorems: P2P session registry -/

theorem lookup_isSome_of_mem_bound (l : List (Nat × Nat)) (u : Nat)
    (h : u ∈ l.map Prod.fst) : (l.lookup u).isSome := by
  induction l with
  | nil => simp at h
  | cons a l ih =>
    by_cases hau : u = a.1
    · simp [List.lookup, beq_iff_eq, hau]
    · have h' : u ∈ l.map Prod.fst := by
        simp only [List.map_cons, List.mem_cons] at h
        exact h.resolve_left hau
      simp only [List.lookup, beq_eq_false_iff_ne.mpr hau]
      exact ih h'

theorem not_mem_boundUsers_eraseBind (reg : Registry) (u : Nat) :
    u ∉ boundUsers (eraseBind reg u) := by
  intro hmem
  obtain ⟨b, hb, hbu⟩ := List.mem_map.mp hmem
  have hfilt := (List.mem_filter.mp hb).2
  rw [decide_eq_true_eq] at hfilt
  exact hfilt hbu

theorem mem_boundUsers_of_eraseBind (reg : Registry) (u x : Nat)
    (h : x ∈ boundUsers (eraseBind reg u)) : x ∈ boundUsers reg := by
  obtain ⟨b, hb, hbx⟩ := List.mem_map.mp h
  exact List.mem_map.mpr ⟨b, (List.mem_filter.mp hb).1, hbx⟩

/-- Claim C3 is false of the code as stated: while `start_trade` rejects a
creator who is already bound, `trade_accept` never checks the joiner.  Here
user 3, already bound to user 1's session (having joined it), joins user 2's
still-pending session as well: the join succeeds and the registry changes
(user 3's binding is replaced), instead of being rejected with no change. -/
theorem join_while_bound_not_rejected :
    3 ∈ boundUsers
        (joinTrade ((startTradeCreate (startTradeCreate emptyRegistry
            1 none 0).2 2 none 1).2) 3).2 ∧
      ¬((joinTrade (joinTrade ((startTradeCreate (startTradeCreate
              emptyRegistry 1 none 0).2 2 none 1).2) 3).2 3).1
            ≠ JoinResult.joined ∧
        (joinTrade (joinTrade ((startTradeCreate (startTradeCreate
              emptyRegistry 1 none 0).2 2 none 1).2) 3).2 3).2
          = (joinTrade ((startTradeCreate (startTradeCreate emptyRegistry
              1 none 0).2 2 none 1).2) 3).2) := by
  refine ⟨by decide, fun h => h.1 (by decide)⟩

/-- Claim C3, amended to what the code enforces: creating a session while
the creator is already bound is rejected with no change to the registry;
but joining is not guarded — whenever the search finds a joinable session
of another user, the join goes through regardless of any session the joiner
is already bound to. -/
theorem single_session_create_reject_join_unguarded :
    (∀ (reg : Registry) (caller : Nat) (target : Option Nat) (sid : Nat),
        caller ∈ boundUsers reg →
        startTradeCreate reg caller target sid = (.alreadyTrading, reg)) ∧
      (∀ (reg : Registry) (caller : Nat) (b : Nat × Nat),
        findJoinable reg caller = some b → b.1 ≠ caller →
        (joinTrade reg caller).1 = .joined) := by
  constructor
  · intro reg caller target sid hmem
    have hs := lookup_isSome_of_mem_bound reg.binds caller hmem
    unfold startTradeCreate
    rw [if_pos hs]
  · intro reg caller b hfind hne
    unfold joinTrade
    rw [hfind]
    simp [hne]

theorem single_session_create_reject_join_unguarded_witness :
    (1 ∈ boundUsers ⟨[(1, 0)], []⟩ ∧
        startTradeCreate ⟨[(1, 0)], []⟩ 1 none 5
          = (.alreadyTrading, ⟨[(1, 0)], []⟩)) ∧
      (findJoinable ⟨[(1, 0)],
            [(0, ⟨none, .openM, .pending, emptyOffer, emptyOffer, []⟩)]⟩ 2
          = some (1, 0) ∧
        (joinTrade ⟨[(1, 0)],
            [(0, ⟨none, .openM, .pending, emptyOffer, emptyOffer, []⟩)]⟩ 2).1
          = .joined) :=
  ⟨⟨by decide,
      single_session_create_reject_join_unguarded.1 ⟨[(1, 0)], []⟩ 1 none 5
        (by decide)⟩,
    ⟨by decide,
      single_session_create_reject_join_unguarded.2
        ⟨[(1, 0)], [(0, ⟨none, .openM, .pending, emptyOffer, emptyOffer, []⟩)]⟩
        2 (1, 0) (by decide) (by decide)⟩⟩

/-- Claim C8 fails on the code at this input: user 1 starts a targeted trade
with user 2, user 2 joins, then user 2 (the responder) denies.  `deny` pops
`[user_id, partner_id]`, but `partner_id` is the responder's own id, so only
user 2 is removed: the session is "denied" yet the initiator stays bound in
`active_trades` (the claim requires neither party to remain bound). -/
theorem deny_by_responder_leaves_initiator_bound :
    (denyTrade (joinTrade (startTradeCreate emptyRegistry 1 (some 2) 0).2
          2).2 2).1 = .denied ∧
      boundUsers (denyTrade (joinTrade (startTradeCreate emptyRegistry
          1 (some 2) 0).2 2).2 2).2 = [1] := by
  decide

/-! ## Theorems: the `buy` command -/

/-- Claim C5 fails on the code: `buy` calls `get_stock_price(ticker)` with
one argument while the function requires `(symbol, guild_id)`, so Python
raises `TypeError` and the command aborts through `cog_command_error` with
the ledger untouched — the registered user keeps cash 1000 and holding 0,
instead of the claimed 599.44 and 2. -/
theorem buy_typeerror_no_mutation :
    buyCmd ⟨[(100, 1000)], []⟩ 100 "GMD" "2"
        = (.internalError, ⟨[(100, 1000)], []⟩) ∧
      getCashBalance ⟨[(100, 1000)], []⟩ 100 = 1000 ∧
      netHolding ⟨[(100, 1000)], []⟩ 100 "GMD" = 0 ∧
      (1000 : ℚ) ≠ 599.44 := by
  refine ⟨rfl, rfl, rfl, by norm_num⟩

/-! ## Theorems: leaderboard daily post -/

/-- Claim C7 fails on the code: with post time `"23:00"` and checks at
22:59, 23:00 and 23:00 of the same day, the gate condition does match at
23:00, but the body first calls `update_leaderboard_cache()` without the
required `guild_id` argument; the `TypeError` is swallowed by the loop's
`except`, so no post is ever emitted and the last-posted-day marker is never
set (the claim requires exactly one post, at the first 23:00 check). -/
theorem daily_post_never_fires :
    runDailyChecks none "23:00"
        [⟨22, 59, "2026-10-12"⟩, ⟨23, 0, "2026-10-12"⟩, ⟨23, 0, "2026-10-12"⟩]
      = (0, none) := by
  decide

/-! ## Theorems: P2P settlement -/

theorem firstShort_some_spec (db : Db) (u : Nat) (stocks : List (String × Int))
    (tq : String × Int) (h : firstShort db u stocks = some tq) :
    tq ∈ stocks ∧ 0 < tq.2 ∧ netHolding db u tq.1 < tq.2 := by
  refine ⟨List.mem_of_find?_eq_some h, ?_⟩
  have hp := List.find?_some h
  simp only [userOwnsStock, Bool.and_eq_true, Bool.not_eq_true',
    decide_eq_true_eq, decide_eq_false_iff_not, not_le] at hp
  exact hp

theorem firstShort_none_spec (db : Db) (u : Nat) (stocks : List (String × Int))
    (h : firstShort db u stocks = none) :
    ∀ tq ∈ stocks, ¬(0 < tq.2 ∧ netHolding db u tq.1 < tq.2) := by
  intro tq htq
  have hp := List.find?_eq_none.mp h tq htq
  simp only [userOwnsStock, Bool.and_eq_true, Bool.not_eq_true',
    decide_eq_true_eq, decide_eq_false_iff_not, not_le, not_and] at hp ⊢
  exact hp

/-- Claim C1 is false of the code exactly as stated: the claim's
insufficiency condition quantifies over *every* offered `(ticker, qty)`
entry, but `_finalize_trade` only checks entries with `qty > 0`.  With a
`!trade T 0` offer from the partner and the partner's net holding of `T`
negative (−1 < 0 is "holding below offered quantity"), settlement does not
fail and does not leave the ledger unchanged: it completes and moves the
initiator's offered $100. -/
theorem settlement_claim_fails_on_zero_qty_offer :
    claimedInsufficient ⟨[(1, 100), (2, 50)], [⟨2, "T", 1, .sell⟩]⟩ 1 2
        ⟨100, []⟩ ⟨0, [("T", 0)]⟩ ∧
      ¬((finalizeTradeDb ⟨[(1, 100), (2, 50)], [⟨2, "T", 1, .sell⟩]⟩ 1 2
            ⟨100, []⟩ ⟨0, [("T", 0)]⟩).1 ≠ FinResult.completed ∧
        (finalizeTradeDb ⟨[(1, 100), (2, 50)], [⟨2, "T", 1, .sell⟩]⟩ 1 2
            ⟨100, []⟩ ⟨0, [("T", 0)]⟩).2
          = ⟨[(1, 100), (2, 50)], [⟨2, "T", 1, .sell⟩]⟩) := by
  constructor
  · unfold claimedInsufficient
    decide
  · exact fun h => h.1 rfl

/-- Claim C1, amended to the condition the code checks (offered entries with
positive quantity; the cash condition is unchanged): if any party's cash is
below its offered cash, or any party's net holding of a ticker offered with
`qty > 0` is below that quantity, then `_finalize_trade` returns a failure
whose reason names an offending party (with the short ticker and quantity in
the stock case) and leaves the ledger completely unchanged — no TradeRecord,
no cash adjustment; and `_trade_fail` unbinds both the initiator (the first
registry key bound to the session) and the recorded partner, discarding the
session. -/
theorem settlement_all_or_nothing (db : Db) (i p : Nat) (io po : Offer)
    (h : posInsufficient db i p io po) :
    (∃ r, finalizeTradeDb db i p io po = (.failed r, db) ∧
        blames db i p io po r) ∧
      (∀ (reg : Registry) (sid i2 p2 : Nat),
        (reg.binds.find? (fun b => decide (b.2 = sid))).map Prod.fst = some i2 →
        (reg.store.lookup sid).bind PSession.partnerId = some p2 →
        i2 ∉ boundUsers (tradeFailDiscard reg sid) ∧
          p2 ∉ boundUsers (tradeFailDiscard reg sid)) := by
  constructor
  · cases hfs1 : firstShort db i io.stocks with
    | some tq =>
      obtain ⟨hmem, hpos, hlt⟩ := firstShort_some_spec db i io.stocks tq hfs1
      refine ⟨.stockShort i tq.1 tq.2, ?_, ?_⟩
      · unfold finalizeTradeDb
        rw [hfs1]
      · exact Or.inl ⟨rfl, hmem, hpos, hlt⟩
    | none =>
      cases hfs2 : firstShort db p po.stocks with
      | some tq =>
        obtain ⟨hmem, hpos, hlt⟩ := firstShort_some_spec db p po.stocks tq hfs2
        refine ⟨.stockShort p tq.1 tq.2, ?_, ?_⟩
        · unfold finalizeTradeDb
          rw [hfs1, hfs2]
        · exact Or.inr ⟨rfl, hmem, hpos, hlt⟩
      | none =>
        by_cases hc1 : (io.cash : ℚ) > getCashBalance db i
        · refine ⟨.cashShort i (getCashBalance db i), ?_, Or.inl ⟨rfl, rfl, hc1⟩⟩
          unfold finalizeTradeDb
          rw [hfs1, hfs2, if_pos hc1]
        · by_cases hc2 : (po.cash : ℚ) > getCashBalance db p
          · refine ⟨.cashShort p (getCashBalance db p), ?_, Or.inr ⟨rfl, rfl, hc2⟩⟩
            unfold finalizeTradeDb
            rw [hfs1, hfs2, if_neg hc1, if_pos hc2]
          · exfalso
            rcases h with h | h | h | h
            · exact hc1 h
            · exact hc2 h
            · obtain ⟨tq, htq, hpos, hlt⟩ := h
              exact firstShort_none_spec db i io.stocks hfs1 tq htq ⟨hpos, hlt⟩
            · obtain ⟨tq, htq, hpos, hlt⟩ := h
              exact firstShort_none_spec db p po.stocks hfs2 tq htq ⟨hpos, hlt⟩
  · intro reg sid i2 p2 hfind hpartner
    cases hb : reg.binds.find? (fun b => decide (b.2 = sid)) with
    | none => rw [hb] at hfind; simp at hfind
    | some b0 =>
      rw [hb, Option.map_some'] at hfind
      replace hfind := Option.some.inj hfind
      have hreg : tradeFailDiscard reg sid
          = eraseBind (eraseBind reg b0.1) p2 := by
        unfold tradeFailDiscard
        rw [hb, hpartner]
      rw [hreg, ← hfind]
      constructor
      · intro hmem
        exact not_mem_boundUsers_eraseBind reg b0.1
          (mem_boundUsers_of_eraseBind _ p2 b0.1 hmem)
      · exact not_mem_boundUsers_eraseBind _ p2

theorem settlement_all_or_nothing_witness :
    posInsufficient ⟨[(1, 100), (2, 50)], []⟩ 1 2 ⟨0, [("T", 1)]⟩ ⟨0, []⟩ ∧
      ((∃ r, finalizeTradeDb ⟨[(1, 100), (2, 50)], []⟩ 1 2 ⟨0, [("T", 1)]⟩
            ⟨0, []⟩ = (.failed r, ⟨[(1, 100), (2, 50)], []⟩) ∧
          blames ⟨[(1, 100), (2, 50)], []⟩ 1 2 ⟨0, [("T", 1)]⟩ ⟨0, []⟩ r) ∧
        (∀ (reg : Registry) (sid i2 p2 : Nat),
          (reg.binds.find? (fun b => decide (b.2 = sid))).map Prod.fst
              = some i2 →
          (reg.store.lookup sid).bind PSession.partnerId = some p2 →
          i2 ∉ boundUsers (tradeFailDiscard reg sid) ∧
            p2 ∉ boundUsers (tradeFailDiscard reg sid))) :=
  ⟨by unfold posInsufficient; decide,
    settlement_all_or_nothing ⟨[(1, 100), (2, 50)], []⟩ 1 2 ⟨0, [("T", 1)]⟩
      ⟨0, []⟩ (by unfold posInsufficient; decide)⟩

/-! ## Theorems: settlement cash conservation -/

theorem lookup_map_updateKey (l : List (Nat × ℚ)) (u v : Nat) (delta : ℚ) :
    (l.map (fun q => if q.1 = u then (q.1, q.2 + delta) else q)).lookup v
      = (l.lookup v).map (fun c => if v = u then c + delta else c) := by
  induction l with
  | nil => rfl
  | cons a l ih =>
    rw [List.map_cons]
    by_cases hau : a.1 = u
    · rw [if_pos hau]
      by_cases hav : v = a.1
      · have hvu : v = u := hav.trans hau
        simp [List.lookup, beq_iff_eq, hav, hvu, hau]
      · simp only [List.lookup, beq_eq_false_iff_ne.mpr hav]
        exact ih
    · rw [if_neg hau]
      by_cases hav : v = a.1
      · have hvu : ¬v = u := fun h => hau (hav.symm.trans h)
        simp [List.lookup, beq_iff_eq, hav, hvu, hau]
      · simp only [List.lookup, beq_eq_false_iff_ne.mpr hav]
        exact ih

theorem getCashBalance_updateBalance (db : Db) (u v : Nat) (delta : ℚ) :
    getCashBalance (updateBalance db u delta) v
      = if v = u ∧ (db.users.lookup v).isSome
        then getCashBalance db v + delta else getCashBalance db v := by
  unfold getCashBalance updateBalance
  simp only
  rw [lookup_map_updateKey]
  cases h : db.users.lookup v with
  | none => simp [h]
  | some c =>
    by_cases hvu : v = u <;> simp [h, hvu]

theorem users_recordTrade (db : Db) (u : Nat) (tk : String) (q : Int)
    (s : Side) : (recordTrade db u tk q s).users = db.users := rfl

theorem users_applyStockTransfers (db : Db) (s b : Nat)
    (l : List (String × Int)) : (applyStockTransfers db s b l).users = db.users := by
  induction l generalizing db with
  | nil => rfl
  | cons tq l ih =>
    unfold applyStockTransfers
    rw [List.foldl_cons]
    unfold applyStockTransfers at ih
    rw [ih]
    by_cases h : 0 < tq.2 <;> simp [h, users_recordTrade]

/-- Claim C10: when settlement succeeds and both parties have account rows,
the two parties' cash balances sum to the same value after as before — the
net cash transfer `io.cash − po.cash` is applied as two opposite-signed
`update_balance` deltas — and when the net is zero the `users` table is not
touched at all. -/
theorem settlement_cash_conservation (db : Db) (i p : Nat) (io po : Offer)
    (a b : ℚ) (db2 : Db)
    (hi : db.users.lookup i = some a) (hp : db.users.lookup p = some b)
    (hfin : finalizeTradeDb db i p io po = (.completed, db2)) :
    getCashBalance db2 i + getCashBalance db2 p
        = getCashBalance db i + getCashBalance db p ∧
      (io.cash = po.cash → db2.users = db.users) := by
  unfold finalizeTradeDb at hfin
  split at hfin
  · simp at hfin
  · split at hfin
    · simp at hfin
    · dsimp only at hfin
      split at hfin
      · simp at hfin
      · split at hfin
        · simp at hfin
        · simp only [Prod.mk.injEq] at hfin
          obtain ⟨-, hdb2⟩ := hfin
          subst hdb2
          set c : ℚ := ((io.cash - po.cash : Int) : ℚ) with hc
          by_cases hnet : (io.cash - po.cash : Int) ≠ 0
          · rw [if_pos hnet]
            have husers :
                (applyStockTransfers (applyStockTransfers
                    (updateBalance (updateBalance db i (-c)) p c) i p io.stocks)
                  p i po.stocks).users
                  = (updateBalance (updateBalance db i (-c)) p c).users := by
              rw [users_applyStockTransfers, users_applyStockTransfers]
            have hcash : ∀ v : Nat,
                getCashBalance (applyStockTransfers (applyStockTransfers
                    (updateBalance (updateBalance db i (-c)) p c) i p io.stocks)
                  p i po.stocks) v
                  = getCashBalance (updateBalance (updateBalance db i (-c)) p c)
                      v := by
              intro v
              unfold getCashBalance
              rw [husers]
            constructor
            · rw [hcash i, hcash p, getCashBalance_updateBalance,
                getCashBalance_updateBalance, getCashBalance_updateBalance,
                getCashBalance_updateBalance]
              have hsi : (db.users.lookup i).isSome := by rw [hi]; rfl
              have hsp : (db.users.lookup p).isSome := by rw [hp]; rfl
              by_cases hip : i = p
              · subst hip
                have hsome : ((updateBalance db i (-c)).users.lookup i).isSome := by
                  unfold updateBalance
                  dsimp only
                  rw [lookup_map_updateKey, hi]
                  rfl
                simp [hsi, hsome]
              · have hsome : ((updateBalance db i (-c)).users.lookup p).isSome := by
                  unfold updateBalance
                  dsimp only
                  rw [lookup_map_updateKey, hp]
                  rfl
                have hpi : ¬p = i := fun h => hip h.symm
                simp [hsi, hsp, hsome, hip, hpi]
                try ring
            · intro heq
              exact absurd (by rw [heq]; ring) hnet
          · rw [if_neg hnet]
            have hu2 : (applyStockTransfers (applyStockTransfers db i p
                io.stocks) p i po.stocks).users = db.users := by
              rw [users_applyStockTransfers, users_applyStockTransfers]
            refine ⟨?_, fun _ => hu2⟩
            unfold getCashBalance
            rw [hu2]

theorem settlement_cash_conservation_witness :
    (⟨[(1, 10), (2, 5)], [⟨1, "T", 1, .buy⟩]⟩ : Db).users.lookup 1
        = some 10 ∧
      (⟨[(1, 10), (2, 5)], [⟨1, "T", 1, .buy⟩]⟩ : Db).users.lookup 2
        = some 5 ∧
      finalizeTradeDb ⟨[(1, 10), (2, 5)], [⟨1, "T", 1, .buy⟩]⟩ 1 2
          ⟨3, [("T", 1)]⟩ ⟨0, []⟩
        = (.completed,
            (finalizeTradeDb ⟨[(1, 10), (2, 5)], [⟨1, "T", 1, .buy⟩]⟩ 1 2
              ⟨3, [("T", 1)]⟩ ⟨0, []⟩).2) ∧
      (getCashBalance (finalizeTradeDb ⟨[(1, 10), (2, 5)],
            [⟨1, "T", 1, .buy⟩]⟩ 1 2 ⟨3, [("T", 1)]⟩ ⟨0, []⟩).2 1
          + getCashBalance (finalizeTradeDb ⟨[(1, 10), (2, 5)],
              [⟨1, "T", 1, .buy⟩]⟩ 1 2 ⟨3, [("T", 1)]⟩ ⟨0, []⟩).2 2
        = getCashBalance ⟨[(1, 10), (2, 5)], [⟨1, "T", 1, .buy⟩]⟩ 1
          + getCashBalance ⟨[(1, 10), (2, 5)], [⟨1, "T", 1, .buy⟩]⟩ 2 ∧
        ((3 : Int) = 0 →
          (finalizeTradeDb ⟨[(1, 10), (2, 5)], [⟨1, "T", 1, .buy⟩]⟩ 1 2
              ⟨3, [("T", 1)]⟩ ⟨0, []⟩).2.users
            = (⟨[(1, 10), (2, 5)], [⟨1, "T", 1, .buy⟩]⟩ : Db).users)) :=
  ⟨rfl, rfl, Prod.ext rfl rfl,
    settlement_cash_conservation ⟨[(1, 10), (2, 5)], [⟨1, "T", 1, .buy⟩]⟩
      1 2 ⟨3, [("T", 1)]⟩ ⟨0, []⟩ 10 5 _ rfl rfl (Prod.ext rfl rfl)⟩

/-! ## Theorems: leaderboard cache rebuild -/

theorem sum_map_zero {α : Type} (l : List α) :
    (l.map (fun _ => (0 : ℚ))).sum = 0 := by
  induction l with
  | nil => rfl
  | cons a l ih => simp [ih]

theorem sum_map_add {α : Type} (l : List α) (f g : α → ℚ) :
    (l.map (fun x => f x + g x)).sum = (l.map f).sum + (l.map g).sum := by
  induction l with
  | nil => simp
  | cons a l ih => simp [ih]; ring

theorem sum_swap {α β : Type} (T : List α) (S : List β) (f : α → β → ℚ) :
    (T.map (fun t => (S.map (f t)).sum)).sum
      = (S.map (fun s => (T.map (fun t => f t s)).sum)).sum := by
  induction T with
  | nil => simp [sum_map_zero]
  | cons a T ih =>
    simp only [List.map_cons, List.sum_cons, ih, sum_map_add]

theorem sum_filter_ite {α : Type} (l : List α) (p : α → Bool) (f : α → ℚ) :
    ((l.filter p).map f).sum = (l.map (fun x => if p x then f x else 0)).sum := by
  induction l with
  | nil => rfl
  | cons a l ih =>
    by_cases h : p a <;> simp [List.filter_cons, h, ih]

theorem ite_sum_push {α : Type} (c : Prop) [Decidable c] (l : List α)
    (f : α → ℚ) :
    (if c then (l.map f).sum else 0)
      = (l.map (fun x => if c then f x else 0)).sum := by
  by_cases h : c <;> simp [h, sum_map_zero]

theorem map_sum_congr {α : Type} (l : List α) (f g : α → ℚ)
    (h : ∀ x ∈ l, f x = g x) : (l.map f).sum = (l.map g).sum := by
  rw [List.map_congr_left h]

theorem netHoldingG_mul (trades : List TRow) (g u : Nat) (tk : String)
    (price : ℚ) :
    (netHoldingG trades g u tk : ℚ) * price
      = (trades.map (fun t =>
          if t.userId = u ∧ t.guildId = g ∧ t.ticker = tk
          then (signedQtyT t : ℚ) * price else 0)).sum := by
  unfold netHoldingG
  rw [Int.cast_list_sum, List.map_map, ← List.sum_map_mul_right,
    sum_filter_ite]
  refine map_sum_congr _ _ _ (fun t _ => ?_)
  by_cases h : t.userId = u ∧ t.guildId = g ∧ t.ticker = tk <;>
    simp [h, Function.comp]

theorem joinSum_eq_spec (trades : List TRow) (stocks : List SRow) (g u : Nat) :
    joinSum trades stocks g u
      = ((stocks.filter (fun s => decide (s.guildId = g))).map
          (fun s => (netHoldingG trades g u s.ticker : ℚ) * s.price)).sum := by
  unfold joinSum
  rw [sum_filter_ite]
  have step1 : ∀ t : TRow,
      (if (decide (t.userId = u ∧ t.guildId = g) : Bool)
        then ((stocks.filter (fun s =>
            decide (s.ticker = t.ticker ∧ s.guildId = g))).map
          (fun s => (signedQtyT t : ℚ) * s.price)).sum else 0)
        = (stocks.map (fun s =>
            if t.userId = u ∧ t.guildId = g
            then (if s.ticker = t.ticker ∧ s.guildId = g
              then (signedQtyT t : ℚ) * s.price else 0) else 0)).sum := by
    intro t
    rw [sum_filter_ite]
    simp only [decide_eq_true_eq]
    rw [ite_sum_push (t.userId = u ∧ t.guildId = g)]
  have hmap := map_sum_congr trades _ _ (fun t _ => step1 t)
  rw [hmap, sum_swap, sum_filter_ite]
  refine map_sum_congr _ _ _ (fun s _ => ?_)
  simp only [decide_eq_true_eq]
  rw [netHoldingG_mul, ite_sum_push (s.guildId = g)]
  refine map_sum_congr _ _ _ (fun t _ => ?_)
  by_cases hP : t.userId = u ∧ t.guildId = g
  · by_cases hsg : s.guildId = g
    · by_cases htk : s.ticker = t.ticker
      · have hR : t.userId = u ∧ t.guildId = g ∧ t.ticker = s.ticker :=
          ⟨hP.1, hP.2, htk.symm⟩
        rw [if_pos hP, if_pos (And.intro htk hsg), if_pos hsg, if_pos hR]
      · have hQ : ¬(s.ticker = t.ticker ∧ s.guildId = g) := fun hh => htk hh.1
        have hR : ¬(t.userId = u ∧ t.guildId = g ∧ t.ticker = s.ticker) :=
          fun hh => htk hh.2.2.symm
        rw [if_pos hP, if_neg hQ, if_pos hsg, if_neg hR]
    · have hQ : ¬(s.ticker = t.ticker ∧ s.guildId = g) := fun hh => hsg hh.2
      rw [if_pos hP, if_neg hQ, if_neg hsg]
  · by_cases hsg : s.guildId = g
    · have hR : ¬(t.userId = u ∧ t.guildId = g ∧ t.ticker = s.ticker) :=
        fun hh => hP ⟨hh.1, hh.2.1⟩
      rw [if_neg hP, if_pos hsg, if_neg hR]
    · rw [if_neg hP, if_neg hsg]

theorem cache_old_rows_have_other_guild (cache : List CacheRow) (g u : Nat) :
    (cache.filter (fun r => decide (r.guildId ≠ g))).find?
        (fun r => decide (r.guildId = g ∧ r.userId = u)) = none := by
  refine List.find?_eq_none.mpr (fun r hr => ?_)
  have h2 := (List.mem_filter.mp hr).2
  rw [decide_eq_true_eq] at h2
  simp only [decide_eq_true_eq, not_and]
  exact fun hg => absurd hg h2

/-- Claim C9: immediately after `update_leaderboard_cache(g)`, every user of
guild `g` has exactly the independently recomputed total
`cash + Σ (net holding × current price)` in the cache (the sum ranges over
the guild's stock rows, which the schema's `PRIMARY KEY (ticker, guild_id)`
makes one per ticker), and the rebuild wholesale-replaces the guild's rows:
rows of other guilds pass through unchanged in both directions. -/
theorem leaderboard_cache_rebuild_correct (cache : List CacheRow)
    (users : List URow) (trades : List TRow) (stocks : List SRow) (g : Nat)
    (hnd : ((users.filter (fun u => decide (u.guildId = g))).map
      URow.userId).Nodup) :
    (∀ u ∈ users, u.guildId = g →
        lookupCache (updateLeaderboardCache cache users trades stocks g) g
            u.userId
          = some (specTotal trades stocks g u.userId u.cash)) ∧
      (∀ r ∈ updateLeaderboardCache cache users trades stocks g,
        r.guildId ≠ g → r ∈ cache) ∧
      (∀ r ∈ cache, r.guildId ≠ g →
        r ∈ updateLeaderboardCache cache users trades stocks g) := by
  refine ⟨?_, ?_, ?_⟩
  · intro u hu hug
    unfold lookupCache updateLeaderboardCache
    rw [List.find?_append, cache_old_rows_have_other_guild cache g u.userId,
      Option.none_or, List.find?_map]
    have hmemf : u ∈ users.filter (fun v => decide (v.guildId = g)) :=
      List.mem_filter.mpr ⟨hu, by rw [decide_eq_true_eq]; exact hug⟩
    have hpred : ∀ v : URow,
        ((fun r : CacheRow => decide (r.guildId = g ∧ r.userId = u.userId)) ∘
          (fun v : URow =>
            (⟨g, v.userId, v.cash + joinSum trades stocks g v.userId⟩ :
              CacheRow))) v
          = decide (v.userId = u.userId) := by
      intro v
      simp [Function.comp]
    have hsome : ((users.filter (fun v => decide (v.guildId = g))).find?
        ((fun r : CacheRow => decide (r.guildId = g ∧ r.userId = u.userId)) ∘
          (fun v : URow =>
            (⟨g, v.userId, v.cash + joinSum trades stocks g v.userId⟩ :
              CacheRow)))).isSome := by
      rw [List.find?_isSome]
      exact ⟨u, hmemf, by rw [hpred]; simp⟩
    obtain ⟨v, hv⟩ := Option.isSome_iff_exists.mp hsome
    have hvmem := List.mem_of_find?_eq_some hv
    have hvid : v.userId = u.userId := by
      have := List.find?_some hv
      rw [hpred] at this
      exact of_decide_eq_true this
    have hvu : v = u := List.inj_on_of_nodup_map hnd hvmem hmemf hvid
    subst hvu
    rw [hv]
    simp only [Option.map_some']
    unfold specTotal
    rw [joinSum_eq_spec]
  · intro r hr hrg
    unfold updateLeaderboardCache at hr
    rcases List.mem_append.mp hr with h | h
    · exact (List.mem_filter.mp h).1
    · obtain ⟨v, hv, hveq⟩ := List.mem_map.mp h
      exact absurd (by rw [← hveq]) hrg
  · intro r hr hrg
    unfold updateLeaderboardCache
    exact List.mem_append.mpr (Or.inl (List.mem_filter.mpr
      ⟨hr, by rw [decide_eq_true_eq]; exact hrg⟩))

theorem leaderboard_cache_rebuild_correct_witness :
    ((([⟨1, 10, 100⟩] : List URow).filter
          (fun u => decide (u.guildId = 1))).map URow.userId).Nodup ∧
      ((∀ u ∈ ([⟨1, 10, 100⟩] : List URow), u.guildId = 1 →
          lookupCache (updateLeaderboardCache [⟨2, 5, 3⟩] [⟨1, 10, 100⟩]
              [⟨10, 1, "GMD", 2, .buy⟩] [⟨"GMD", 1, 200.28⟩] 1) 1 u.userId
            = some (specTotal [⟨10, 1, "GMD", 2, .buy⟩] [⟨"GMD", 1, 200.28⟩]
                1 u.userId u.cash)) ∧
        (∀ r ∈ updateLeaderboardCache [⟨2, 5, 3⟩] [⟨1, 10, 100⟩]
            [⟨10, 1, "GMD", 2, .buy⟩] [⟨"GMD", 1, 200.28⟩] 1,
          r.guildId ≠ 1 → r ∈ [⟨2, 5, 3⟩]) ∧
        (∀ r ∈ ([⟨2, 5, 3⟩] : List CacheRow), r.guildId ≠ 1 →
          r ∈ updateLeaderboardCache [⟨2, 5, 3⟩] [⟨1, 10, 100⟩]
            [⟨10, 1, "GMD", 2, .buy⟩] [⟨"GMD", 1, 200.28⟩] 1)) :=
  ⟨by decide,
    leaderboard_cache_rebuild_correct [⟨2, 5, 3⟩] [⟨1, 10, 100⟩]
      [⟨10, 1, "GMD", 2, .buy⟩] [⟨"GMD", 1, 200.28⟩] 1 (by decide)⟩

end ToiletExchange
